import Mathlib

/-!
Verification of the authorization and data-consistency contract of the
dripl0 marketplace schema dump (`SUPABASE_COMPLETE_STRUCTURE_FINAL.md`).

The SQL functions, triggers, table constraints and row-level-security
policies of the dump are shallowly embedded as executable Lean
definitions: `NUMERIC` becomes `ℚ`, `TIMESTAMPTZ` becomes a `Nat` clock,
`VARCHAR`/`TEXT` become `String`, tables become lists of row structures,
and a statement that can fail (constraint violation, aborted
transaction) returns `Option`.  Row-level security follows the
PostgreSQL evaluation rule: permissive policies for one operation are
OR'd, `UPDATE` checks some policy's `USING` clause on the existing row
and some policy's `WITH CHECK` clause (defaulting to `USING` when
absent) on the updated row.
-/

namespace Driplo

abbrev UserId := Nat

abbrev Time := Nat

/-- The `user_role` enum: `('user', 'admin', 'moderator')`. -/
inductive Role where
  | user
  | admin
  | moderator
deriving DecidableEq, BEq, Repr

/-- The `order_status` enum of the dump. -/
inductive OrderStatus where
  | pending_payment
  | payment_processing
  | payment_failed
  | paid
  | preparing
  | shipped
  | in_transit
  | delivered
  | completed
  | cancelled
  | refunded
deriving DecidableEq, BEq, Repr

/-! ## Decimal text rendering, `LPAD`, `TO_CHAR(.., 'YYYYMMDD')`

These model PostgreSQL's text conversions used by
`generate_order_number`.  `natToText` is the decimal rendering of a
nonnegative integral value (`FLOOR(..)::TEXT`). -/

/-- Decimal text of a natural number, most significant digit first. -/
def natToText (n : Nat) : String :=
  if n = 0 then String.mk ['0']
  else String.mk (((Nat.digits 10 n).map Nat.digitChar).reverse)

/-- PostgreSQL `LPAD(s, w, fill)`: left-pad to width `w`, truncating the
right end when `s` is already longer than `w`. -/
def lpad (s : String) (w : Nat) (fill : Char) : String :=
  if w ≤ s.length then String.mk (s.data.take w)
  else String.mk (List.replicate (w - s.length) fill ++ s.data)

/-- Zero-padding used by `TO_CHAR` format fields (`YYYY`, `MM`, `DD`):
pads to the field width but never truncates. -/
def zeroPad (w : Nat) (n : Nat) : String :=
  if w ≤ (natToText n).length then natToText n
  else String.mk
    (List.replicate (w - (natToText n).length) '0' ++ (natToText n).data)

/-- A calendar date as rendered by `NOW()`. -/
structure PgDate where
  year : Nat
  month : Nat
  day : Nat
deriving DecidableEq, Repr

/-- Model of `TO_CHAR(NOW(), 'YYYYMMDD')`. -/
def to_char_yyyymmdd (d : PgDate) : String :=
  zeroPad 4 d.year ++ zeroPad 2 d.month ++ zeroPad 2 d.day

/-- The `generate_order_number` function of the dump:
`'ORD-' || TO_CHAR(NOW(), 'YYYYMMDD') || '-' ||
 LPAD(FLOOR(RANDOM() * 10000)::TEXT, 4, '0')`.
The value drawn from `RANDOM()` (uniform on `[0, 1)`) is passed in as
the rational `r` and the current date as `today`. -/
def generate_order_number (today : PgDate) (r : ℚ) : String :=
  String.mk ['O', 'R', 'D', '-'] ++ to_char_yyyymmdd today ++
    String.mk ['-'] ++ lpad (natToText (Int.toNat ⌊r * 10000⌋)) 4 '0'

/-! ## `calculate_platform_fee` -/

/-- PostgreSQL `ROUND(x)` on `NUMERIC`: round to the nearest integer,
ties away from zero. -/
def pg_round_half (x : ℚ) : ℤ :=
  if 0 ≤ x then ⌊x + 1 / 2⌋ else -⌊-x + 1 / 2⌋

/-- PostgreSQL `ROUND(x, 2)` on `NUMERIC`. -/
def round_scale2 (x : ℚ) : ℚ :=
  (pg_round_half (x * 100) : ℚ) / 100

/-- The `calculate_platform_fee` function of the dump:
`RETURN ROUND(amount * 0.05, 2)` (a fixed 5% fee). -/
def calculate_platform_fee (amount : ℚ) : ℚ :=
  round_scale2 (amount * (5 / 100))

/-! ## Supporting lemmas for text rendering -/

theorem natToText_length_le {n k : Nat} (hk : 0 < k) (h : n < 10 ^ k) :
    (natToText n).length ≤ k := by
  unfold natToText
  split
  · simpa [String.length] using hk
  · rename_i hn
    have h10 : (1 : Nat) < 10 := by norm_num
    have hlen : (Nat.digits 10 n).length = Nat.log 10 n + 1 :=
      Nat.digits_len 10 n h10 hn
    have hlog : Nat.log 10 n < k := Nat.log_lt_of_lt_pow hn h
    simp [String.length, hlen]
    omega

theorem natToText_isDigit {n : Nat} :
    ∀ c ∈ (natToText n).data, c.isDigit = true := by
  unfold natToText
  split
  · intro c hc
    rcases List.mem_singleton.mp hc with rfl
    decide
  · intro c hc
    have hc2 : c ∈ ((Nat.digits 10 n).map Nat.digitChar).reverse := hc
    rw [List.mem_reverse, List.mem_map] at hc2
    obtain ⟨d, hd, hdc⟩ := hc2
    have hlt : d < 10 := Nat.digits_lt_base (by norm_num) hd
    subst hdc
    interval_cases d <;> decide

theorem lpad_length (s : String) (w : Nat) (fill : Char) :
    (lpad s w fill).length = w := by
  unfold lpad
  split
  · rename_i hle
    show (s.data.take w).length = w
    rw [List.length_take]
    have hdata : s.data.length = s.length := rfl
    omega
  · rename_i hgt
    show (List.replicate (w - s.length) fill ++ s.data).length = w
    rw [List.length_append, List.length_replicate]
    have hdata : s.data.length = s.length := rfl
    omega

theorem lpad_isDigit {s : String} {w : Nat} {fill : Char}
    (hf : fill.isDigit = true) (hs : ∀ c ∈ s.data, c.isDigit = true) :
    ∀ c ∈ (lpad s w fill).data, c.isDigit = true := by
  unfold lpad
  split
  · intro c hc
    have hc2 : c ∈ s.data.take w := hc
    exact hs c (List.take_subset w s.data hc2)
  · intro c hc
    have hc2 : c ∈ List.replicate (w - s.length) fill ++ s.data := hc
    rcases List.mem_append.mp hc2 with hc3 | hc3
    · rcases List.eq_of_mem_replicate hc3 with rfl
      exact hf
    · exact hs c hc3

theorem zeroPad_length {w n : Nat} (hw : 0 < w) (h : n < 10 ^ w) :
    (zeroPad w n).length = w := by
  have hle : (natToText n).length ≤ w := natToText_length_le hw h
  unfold zeroPad
  split
  · rename_i hge
    omega
  · rename_i hlt
    show (List.replicate (w - (natToText n).length) '0' ++
      (natToText n).data).length = w
    rw [List.length_append, List.length_replicate]
    have hdata : (natToText n).data.length = (natToText n).length := rfl
    omega

theorem zeroPad_isDigit {w n : Nat} :
    ∀ c ∈ (zeroPad w n).data, c.isDigit = true := by
  unfold zeroPad
  split
  · exact natToText_isDigit
  · intro c hc
    have hc2 : c ∈ List.replicate (w - (natToText n).length) '0' ++
        (natToText n).data := hc
    rcases List.mem_append.mp hc2 with hc3 | hc3
    · rcases List.eq_of_mem_replicate hc3 with rfl
      decide
    · exact natToText_isDigit c hc3

theorem to_char_yyyymmdd_length {d : PgDate} (hy : d.year < 10000)
    (hm : d.month < 100) (hd : d.day < 100) :
    (to_char_yyyymmdd d).length = 8 := by
  have h1 : (zeroPad 4 d.year).length = 4 :=
    zeroPad_length (by norm_num) (by norm_num at hy ⊢; omega)
  have h2 : (zeroPad 2 d.month).length = 2 :=
    zeroPad_length (by norm_num) (by norm_num at hm ⊢; omega)
  have h3 : (zeroPad 2 d.day).length = 2 :=
    zeroPad_length (by norm_num) (by norm_num at hd ⊢; omega)
  simp [to_char_yyyymmdd, String.length_append, h1, h2, h3]

theorem to_char_yyyymmdd_isDigit {d : PgDate} :
    ∀ c ∈ (to_char_yyyymmdd d).data, c.isDigit = true := by
  intro c hc
  have hc2 : c ∈ (zeroPad 4 d.year).data ++ (zeroPad 2 d.month).data ++
      (zeroPad 2 d.day).data := by
    simpa [to_char_yyyymmdd, String.data_append] using hc
  rcases List.mem_append.mp hc2 with hc3 | hc3
  · rcases List.mem_append.mp hc3 with hc4 | hc4
    · exact zeroPad_isDigit c hc4
    · exact zeroPad_isDigit c hc4
  · exact zeroPad_isDigit c hc3

/-- Claim C5: every identifier produced by `generate_order_number` has
exactly the form `ORD-` followed by the current date as eight digits
(YYYYMMDD), a hyphen, and exactly four decimal digits. -/
theorem generate_order_number_format (today : PgDate) (r : ℚ)
    (hy : today.year < 10000) (hm : today.month < 100)
    (hd : today.day < 100) (hr0 : 0 ≤ r) (hr1 : r < 1) :
    ∃ ds ns : String,
      generate_order_number today r =
        String.mk ['O', 'R', 'D', '-'] ++ ds ++ String.mk ['-'] ++ ns ∧
      ds.length = 8 ∧ (∀ c ∈ ds.data, c.isDigit = true) ∧
      ns.length = 4 ∧ (∀ c ∈ ns.data, c.isDigit = true) := by
  refine ⟨to_char_yyyymmdd today,
    lpad (natToText (Int.toNat ⌊r * 10000⌋)) 4 '0', rfl,
    to_char_yyyymmdd_length hy hm hd, to_char_yyyymmdd_isDigit,
    lpad_length _ _ _, lpad_isDigit (by decide) natToText_isDigit⟩

/-- Witness for C5 at a concrete date and random draw. -/
theorem generate_order_number_format_witness :
    ∃ ds ns : String,
      generate_order_number ⟨2026, 10, 12⟩ (37 / 100) =
        String.mk ['O', 'R', 'D', '-'] ++ ds ++ String.mk ['-'] ++ ns ∧
      ds.length = 8 ∧ (∀ c ∈ ds.data, c.isDigit = true) ∧
      ns.length = 4 ∧ (∀ c ∈ ns.data, c.isDigit = true) :=
  generate_order_number_format ⟨2026, 10, 12⟩ (37 / 100)
    (by norm_num) (by norm_num) (by norm_num) (by norm_num) (by norm_num)

/-! ## Rounding lemmas for the platform fee -/

theorem pg_round_half_abs (y : ℚ) :
    |(pg_round_half y : ℚ) - y| ≤ 1 / 2 := by
  unfold pg_round_half
  split
  · rename_i hy
    have h1 : ((⌊y + 1 / 2⌋ : ℤ) : ℚ) ≤ y + 1 / 2 := Int.floor_le _
    have h2 : y + 1 / 2 - 1 < ((⌊y + 1 / 2⌋ : ℤ) : ℚ) :=
      Int.sub_one_lt_floor _
    rw [abs_le]
    constructor <;> linarith
  · rename_i hy
    have h1 : ((⌊-y + 1 / 2⌋ : ℤ) : ℚ) ≤ -y + 1 / 2 := Int.floor_le _
    have h2 : -y + 1 / 2 - 1 < ((⌊-y + 1 / 2⌋ : ℤ) : ℚ) :=
      Int.sub_one_lt_floor _
    rw [abs_le]
    push_cast
    constructor <;> linarith

/-- Claim C6: `calculate_platform_fee` is a pure function of its amount
argument; for every amount it returns the amount times 5/100 rounded to
two decimal places — the result is an integer number of hundredths and
differs from the exact 5% value by at most half a hundredth. -/
theorem calculate_platform_fee_spec (a : ℚ) :
    (∃ k : ℤ, calculate_platform_fee a = (k : ℚ) / 100) ∧
      |calculate_platform_fee a - a * (5 / 100)| ≤ 1 / 200 := by
  constructor
  · exact ⟨pg_round_half (a * (5 / 100) * 100), rfl⟩
  · have h := pg_round_half_abs (a * (5 / 100) * 100)
    unfold calculate_platform_fee round_scale2
    have hset : (pg_round_half (a * (5 / 100) * 100) : ℚ) / 100 -
        a * (5 / 100) =
        ((pg_round_half (a * (5 / 100) * 100) : ℚ) -
          a * (5 / 100) * 100) / 100 := by
      ring
    rw [hset, abs_div]
    rw [show |(100 : ℚ)| = 100 by norm_num]
    rw [div_le_iff₀ (by norm_num)]
    calc |(pg_round_half (a * (5 / 100) * 100) : ℚ) - a * (5 / 100) * 100|
        ≤ 1 / 2 := h
      _ ≤ 1 / 200 * 100 := by norm_num

/-! ## `get_optimized_image_url`

`REPLACE(s, pat, rep)` substitutes every non-overlapping occurrence of
`pat`, scanning left to right.  `LIKE` treats `%` as any sequence and
`_` as exactly one character, so the dump's pattern `'%_thumb.webp'`
matches any string whose suffix is one arbitrary character followed by
`thumb.webp`. -/

/-- Left-to-right replacement of every occurrence of `pat` by `rep`
(the scan of SQL `REPLACE`); an empty pattern matches nothing. -/
def replaceCore (pat rep : List Char) : List Char → List Char
  | [] => []
  | c :: rest =>
    if h : pat ≠ [] ∧ pat.isPrefixOf (c :: rest) then
      rep ++ replaceCore pat rep ((c :: rest).drop pat.length)
    else
      c :: replaceCore pat rep rest
termination_by s => s.length
decreasing_by
  · simp only [List.length_drop, List.length_cons]
    have hp : 0 < pat.length := List.length_pos.mpr h.1
    omega
  · simp only [List.length_cons]
    omega

/-- SQL `REPLACE` on strings. -/
def sqlReplace (s pat rep : String) : String :=
  String.mk (replaceCore pat.data rep.data s.data)

/-- SQL `s LIKE '%<t>'`: `t` is a suffix of `s`. -/
def likeSuffix (s t : String) : Bool :=
  t.data.isSuffixOf s.data

/-- SQL `s LIKE '%_<t>'`: `t` is a suffix of `s` preceded by at least
one character (`_` is the single-character wildcard). -/
def likeOneThenSuffix (s t : String) : Bool :=
  t.data.isSuffixOf s.data && decide (t.data.length < s.data.length)

def webpExt : String := ".webp"

def sizeThumb : String := "thumb"

def sizeSmall : String := "small"

def sizeMedium : String := "medium"

def sizeLarge : String := "large"

def underscore : String := "_"

/-- The `get_optimized_image_url` function of the dump: return the URL
unchanged when it already carries a `_<size>.webp` suffix, insert the
size before `.webp` when it is a plain WebP URL, and return any
non-WebP URL unchanged. -/
def get_optimized_image_url (base_url : String) (size : String) : String :=
  if likeOneThenSuffix base_url (sizeThumb ++ webpExt) ||
      likeOneThenSuffix base_url (sizeSmall ++ webpExt) ||
      likeOneThenSuffix base_url (sizeMedium ++ webpExt) ||
      likeOneThenSuffix base_url (sizeLarge ++ webpExt) then
    base_url
  else if likeSuffix base_url webpExt then
    sqlReplace base_url webpExt (underscore ++ size ++ webpExt)
  else
    base_url

/-! Suffix lemmas about `replaceCore` for the `.webp` pattern.  The
pattern `['.', 'w', 'e', 'b', 'p']` has no nonempty proper border
(no proper prefix equals a suffix), so the rightmost occurrence is
always replaced and the replacement ends the result. -/

theorem webp_no_border {k : Nat} (hk1 : 1 ≤ k) (hk4 : k ≤ 4)
    {t : List Char} (h2 : webpExt.data = webpExt.data.drop k ++ t) :
    False := by
  have hwd : webpExt.data = ['.', 'w', 'e', 'b', 'p'] := rfl
  rw [hwd] at h2
  interval_cases k
  · have hch : ('.' : Char) = 'w' := by
      have hhd := congrArg (fun l => l.headD 'x') h2
      simpa using hhd
    exact absurd hch (by decide)
  · have hch : ('.' : Char) = 'e' := by
      have hhd := congrArg (fun l => l.headD 'x') h2
      simpa using hhd
    exact absurd hch (by decide)
  · have hch : ('.' : Char) = 'b' := by
      have hhd := congrArg (fun l => l.headD 'x') h2
      simpa using hhd
    exact absurd hch (by decide)
  · have hch : ('.' : Char) = 'p' := by
      have hhd := congrArg (fun l => l.headD 'x') h2
      simpa using hhd
    exact absurd hch (by decide)

theorem replaceCore_suffix (rep : List Char) :
    ∀ n s, s.length ≤ n → webpExt.data <:+ s →
      rep <:+ replaceCore webpExt.data rep s := by
  intro n
  induction n with
  | zero =>
    intro s hs hsuf
    rw [Nat.le_zero] at hs
    rcases List.length_eq_zero.mp hs with rfl
    exact absurd (List.suffix_nil.mp hsuf) (by decide)
  | succ n ih =>
    intro s hs hsuf
    match s with
    | [] => exact absurd (List.suffix_nil.mp hsuf) (by decide)
    | c :: rest =>
      rw [replaceCore]
      split
      · rename_i h
        have hlenp : webpExt.data.length = 5 := rfl
        by_cases ht : (c :: rest).drop webpExt.data.length = []
        · have hnil : replaceCore webpExt.data rep [] = [] := by
            rw [replaceCore]
          rw [ht, hnil, List.append_nil]
        · have hdlen := List.length_drop webpExt.data.length (c :: rest)
          have hpos : 0 < ((c :: rest).drop webpExt.data.length).length :=
            List.length_pos.mpr ht
          have hslen : 5 < (c :: rest).length := by
            rw [hlenp] at hdlen hpos
            omega
          have hdropsuf : webpExt.data <:+ (c :: rest).drop 5 := by
            obtain ⟨a, ha⟩ := hsuf
            have halen : a.length = (c :: rest).length - 5 := by
              have hl := congrArg List.length ha
              rw [List.length_append, hlenp] at hl
              omega
            by_cases hbig : 10 ≤ (c :: rest).length
            · refine ⟨a.drop 5, ?_⟩
              rw [← ha]
              exact (List.drop_append_of_le_length (by omega)).symm
            · exfalso
              obtain ⟨t, htail⟩ := List.isPrefixOf_iff_prefix.mp h.2
              have hco : webpExt.data ++ t = a ++ webpExt.data := by
                rw [ha, htail]
              have hstep := congrArg (fun l => List.drop a.length l) hco
              simp only [List.drop_left] at hstep
              rw [List.drop_append_of_le_length (by rw [hlenp]; omega)]
                at hstep
              exact webp_no_border (by omega) (by omega) hstep.symm
          have htlen : ((c :: rest).drop 5).length ≤ n := by
            rw [List.length_drop]
            omega
          have hrec := ih ((c :: rest).drop 5) htlen hdropsuf
          have hfin : replaceCore webpExt.data rep ((c :: rest).drop 5) <:+
              rep ++ replaceCore webpExt.data rep
                ((c :: rest).drop webpExt.data.length) := by
            rw [hlenp]
            exact List.suffix_append _ _
          exact hrec.trans hfin
      · rename_i h
        rcases List.suffix_cons_iff.mp hsuf with hcase | hcase
        · exfalso
          apply h
          refine ⟨by decide, ?_⟩
          rw [← hcase]
          exact List.isPrefixOf_iff_prefix.mpr (List.prefix_refl _)
        · have hrlen : rest.length ≤ n := by
            have hs2 := hs
            simp only [List.length_cons] at hs2
            omega
          have hrec := ih rest hrlen hcase
          exact hrec.trans (List.suffix_cons c _)

theorem likeOneThenSuffix_webp {u sz : String}
    (h : likeOneThenSuffix u (sz ++ webpExt) = true) :
    likeSuffix u webpExt = true := by
  unfold likeOneThenSuffix at h
  rw [Bool.and_eq_true, List.isSuffixOf_iff_suffix] at h
  unfold likeSuffix
  rw [List.isSuffixOf_iff_suffix]
  have hmid : webpExt.data <:+ (sz ++ webpExt).data := by
    rw [String.data_append]
    exact List.suffix_append _ _
  exact hmid.trans h.1

theorem sqlReplace_pattern (u sz : String)
    (hu : likeSuffix u webpExt = true) :
    likeOneThenSuffix (sqlReplace u webpExt (underscore ++ sz ++ webpExt))
      (sz ++ webpExt) = true := by
  have hsu : webpExt.data <:+ u.data := by
    unfold likeSuffix at hu
    exact List.isSuffixOf_iff_suffix.mp hu
  have hrep : (underscore ++ sz ++ webpExt).data <:+
      replaceCore webpExt.data (underscore ++ sz ++ webpExt).data u.data :=
    replaceCore_suffix _ u.data.length u.data le_rfl hsu
  have hdat : (underscore ++ sz ++ webpExt).data =
      ['_'] ++ ((sz ++ webpExt).data) := by
    rw [String.data_append, String.data_append, String.data_append]
    rfl
  have hsub : (sz ++ webpExt).data <:+
      replaceCore webpExt.data (underscore ++ sz ++ webpExt).data u.data := by
    refine List.IsSuffix.trans ?_ hrep
    rw [hdat]
    exact List.suffix_append _ _
  have hlt : (sz ++ webpExt).data.length <
      (replaceCore webpExt.data (underscore ++ sz ++ webpExt).data
        u.data).length := by
    have hlen := List.IsSuffix.length_le hrep
    have hreplen : (underscore ++ sz ++ webpExt).data.length =
        (sz ++ webpExt).data.length + 1 := by
      rw [hdat, List.length_append]
      simp only [List.length_singleton]
      omega
    omega
  unfold likeOneThenSuffix sqlReplace
  rw [Bool.and_eq_true, List.isSuffixOf_iff_suffix]
  exact ⟨hsub, by simpa using hlt⟩

/-! Branch lemmas for `get_optimized_image_url`. -/

theorem get_opt_of_match {w s : String}
    (h : (likeOneThenSuffix w (sizeThumb ++ webpExt) ||
      likeOneThenSuffix w (sizeSmall ++ webpExt) ||
      likeOneThenSuffix w (sizeMedium ++ webpExt) ||
      likeOneThenSuffix w (sizeLarge ++ webpExt)) = true) :
    get_optimized_image_url w s = w := by
  unfold get_optimized_image_url
  rw [if_pos h]

theorem get_opt_of_webp {w s : String}
    (h1 : (likeOneThenSuffix w (sizeThumb ++ webpExt) ||
      likeOneThenSuffix w (sizeSmall ++ webpExt) ||
      likeOneThenSuffix w (sizeMedium ++ webpExt) ||
      likeOneThenSuffix w (sizeLarge ++ webpExt)) = false)
    (h2 : likeSuffix w webpExt = true) :
    get_optimized_image_url w s =
      sqlReplace w webpExt (underscore ++ s ++ webpExt) := by
  unfold get_optimized_image_url
  rw [if_neg (by simp [h1]), if_pos h2]

theorem get_opt_of_other {w s : String}
    (h1 : (likeOneThenSuffix w (sizeThumb ++ webpExt) ||
      likeOneThenSuffix w (sizeSmall ++ webpExt) ||
      likeOneThenSuffix w (sizeMedium ++ webpExt) ||
      likeOneThenSuffix w (sizeLarge ++ webpExt)) = false)
    (h2 : likeSuffix w webpExt = false) :
    get_optimized_image_url w s = w := by
  unfold get_optimized_image_url
  rw [if_neg (by simp [h1]), if_neg (by simp [h2])]

/-- Claim C9: `get_optimized_image_url` is idempotent for the four
recognized sizes, and every URL that does not end in `.webp` is
returned unchanged. -/
theorem get_optimized_image_url_spec (u s : String)
    (hs : s = sizeThumb ∨ s = sizeSmall ∨ s = sizeMedium ∨
      s = sizeLarge) :
    get_optimized_image_url (get_optimized_image_url u s) s =
      get_optimized_image_url u s ∧
    (likeSuffix u webpExt = false → get_optimized_image_url u s = u) := by
  by_cases hp : (likeOneThenSuffix u (sizeThumb ++ webpExt) ||
      likeOneThenSuffix u (sizeSmall ++ webpExt) ||
      likeOneThenSuffix u (sizeMedium ++ webpExt) ||
      likeOneThenSuffix u (sizeLarge ++ webpExt)) = true
  · have h1 : get_optimized_image_url u s = u := get_opt_of_match hp
    rw [h1]
    exact ⟨h1, fun _ => rfl⟩
  · have hp2 : (likeOneThenSuffix u (sizeThumb ++ webpExt) ||
        likeOneThenSuffix u (sizeSmall ++ webpExt) ||
        likeOneThenSuffix u (sizeMedium ++ webpExt) ||
        likeOneThenSuffix u (sizeLarge ++ webpExt)) = false := by
      simpa using hp
    by_cases hw : likeSuffix u webpExt = true
    · have h1 : get_optimized_image_url u s =
          sqlReplace u webpExt (underscore ++ s ++ webpExt) :=
        get_opt_of_webp hp2 hw
      constructor
      · rw [h1]
        rcases hs with rfl | rfl | rfl | rfl
        · exact get_opt_of_match
            (by simp [sqlReplace_pattern u sizeThumb hw])
        · exact get_opt_of_match
            (by simp [sqlReplace_pattern u sizeSmall hw])
        · exact get_opt_of_match
            (by simp [sqlReplace_pattern u sizeMedium hw])
        · exact get_opt_of_match
            (by simp [sqlReplace_pattern u sizeLarge hw])
      · intro hfalse
        rw [hw] at hfalse
        cases hfalse
    · have hw2 : likeSuffix u webpExt = false := by
        simpa using hw
      have h1 : get_optimized_image_url u s = u := get_opt_of_other hp2 hw2
      rw [h1]
      exact ⟨h1, fun _ => rfl⟩

def demoUrl : String := "photo.webp"

/-- Witness for C9 at a concrete URL and size. -/
theorem get_optimized_image_url_spec_witness :
    (sizeMedium = sizeThumb ∨ sizeMedium = sizeSmall ∨
      sizeMedium = sizeMedium ∨ sizeMedium = sizeLarge) ∧
    (get_optimized_image_url (get_optimized_image_url demoUrl sizeMedium)
        sizeMedium = get_optimized_image_url demoUrl sizeMedium ∧
      (likeSuffix demoUrl webpExt = false →
        get_optimized_image_url demoUrl sizeMedium = demoUrl)) :=
  ⟨Or.inr (Or.inr (Or.inl rfl)),
    get_optimized_image_url_spec demoUrl sizeMedium
      (Or.inr (Or.inr (Or.inl rfl)))⟩

/-! ## The database state

Only the tables and columns the claims touch are modelled: `auth.users`
(id, email), `profiles` (id, email, username, role, setup_completed,
setup_completed_at), `shopping_carts` (id, user_id, expires_at, with
`UNIQUE(user_id)` and `expires_at DEFAULT NOW() + INTERVAL '30 days'`),
`cart_items` (cart_id), `user_stats_summary` (user_id, counters
defaulting to 0), and `profile_setup_progress` (user_id, step_name,
completed, with `UNIQUE(user_id, step_name)`).  Cart ids are drawn from
a counter, modelling `uuid_generate_v4()` freshness. -/

structure AuthUser where
  id : UserId
  email : String
deriving DecidableEq, Repr

structure ProfileRow where
  id : UserId
  email : String
  username : String
  role : Role
  setup_completed : Bool
  setup_completed_at : Option Time
deriving DecidableEq, Repr

structure CartRow where
  id : Nat
  user_id : UserId
  expires_at : Time
deriving DecidableEq, Repr

structure CartItemRow where
  cart_id : Nat
deriving DecidableEq, Repr

structure StatsRow where
  user_id : UserId
  total_sales : Nat
  total_purchases : Nat
deriving DecidableEq, Repr

structure StepRow where
  user_id : UserId
  step_name : String
  completed : Bool
deriving DecidableEq, Repr

structure DB where
  users : List AuthUser
  profiles : List ProfileRow
  carts : List CartRow
  cart_items : List CartItemRow
  stats : List StatsRow
  setup_steps : List StepRow
  nextCartId : Nat
deriving DecidableEq, Repr

/-- PostgreSQL `SPLIT_PART(s, delim, n)`: the `n`-th field (1-based)
after splitting on `delim`, or the empty string when out of range. -/
def split_part (s : String) (delim : Char) (n : Nat) : String :=
  (s.split (fun c => c == delim)).getD (n - 1) (String.mk [])

/-- The username assigned by `handle_new_user`:
`LOWER(SPLIT_PART(NEW.email, '@', 1))`. -/
def default_username (email : String) : String :=
  (split_part email '@' 1).toLower

/-- `INTERVAL '30 days'` in seconds, the `shopping_carts.expires_at`
default offset. -/
def cartTTL : Nat := 2592000

/-- `INSERT INTO profiles (id, email, username)`: fails on a duplicate
primary key `id`, a duplicate `UNIQUE` username, or a username
overflowing `VARCHAR(30)`; other columns take their defaults. -/
def insertProfile (u : AuthUser) (db : DB) : Option DB :=
  if db.profiles.any (fun p => p.id == u.id) then none
  else if db.profiles.any
      (fun p => p.username == default_username u.email) then none
  else if 30 < (default_username u.email).length then none
  else some ⟨db.users,
    ⟨u.id, u.email, default_username u.email, Role.user, false, none⟩ ::
      db.profiles,
    db.carts, db.cart_items, db.stats, db.setup_steps, db.nextCartId⟩

/-- `INSERT INTO shopping_carts (user_id)`: fails when `UNIQUE(user_id)`
is violated; `expires_at` defaults to `NOW() + INTERVAL '30 days'`. -/
def insertCart (uid : UserId) (now : Time) (db : DB) : Option DB :=
  if db.carts.any (fun c => c.user_id == uid) then none
  else some ⟨db.users, db.profiles,
    ⟨db.nextCartId, uid, now + cartTTL⟩ :: db.carts,
    db.cart_items, db.stats, db.setup_steps, db.nextCartId + 1⟩

/-- `INSERT INTO user_stats_summary (user_id)`: fails on a duplicate
primary key; the counters default to 0. -/
def insertStats (uid : UserId) (db : DB) : Option DB :=
  if db.stats.any (fun s => s.user_id == uid) then none
  else some ⟨db.users, db.profiles, db.carts, db.cart_items,
    ⟨uid, 0, 0⟩ :: db.stats, db.setup_steps, db.nextCartId⟩

/-- The `handle_new_user` trigger function: inserts the profile (with
the derived username), the shopping cart and the stats row.  A failure
of any insert aborts the whole function (`none`). -/
def handle_new_user (u : AuthUser) (now : Time) (db : DB) : Option DB :=
  match insertProfile u db with
  | none => none
  | some db1 =>
    match insertCart u.id now db1 with
    | none => none
    | some db2 => insertStats u.id db2

/-- `INSERT INTO auth.users` together with the `on_auth_user_created`
`AFTER INSERT` trigger: the trigger runs in the same transaction, so a
trigger failure rolls the user row back as well and the state is
unchanged. -/
def createPrincipal (u : AuthUser) (now : Time) (db : DB) : DB :=
  if db.users.any (fun v => v.id == u.id) then db
  else
    match handle_new_user u now
        ⟨u :: db.users, db.profiles, db.carts, db.cart_items, db.stats,
          db.setup_steps, db.nextCartId⟩ with
    | some db1 => db1
    | none => db

/-- Well-formedness of a database state: cart ids are below the
freshness counter (so are the cart ids referenced by cart items), and
`UNIQUE(user_id)` holds on `shopping_carts`. -/
def DB.WF (db : DB) : Prop :=
  (∀ c ∈ db.carts, c.id < db.nextCartId) ∧
  (∀ it ∈ db.cart_items, it.cart_id < db.nextCartId) ∧
  (db.carts.map (fun c => c.user_id)).Nodup

/-- The `get_or_create_cart` function of the dump: select the id of a
cart of `user_uuid` with `expires_at > NOW()`; when none is found,
insert a fresh cart (which fails with a uniqueness violation if the
user still has an expired cart row). -/
def get_or_create_cart (user_uuid : UserId) (now : Time) (db : DB) :
    Option (Nat × DB) :=
  match db.carts.find?
      (fun c => c.user_id == user_uuid && decide (now < c.expires_at)) with
  | some c => some (c.id, db)
  | none =>
    match insertCart user_uuid now db with
    | none => none
    | some db1 => some (db.nextCartId, db1)

/-! ## Profile setup completion -/

def stepAvatar : String := "avatar_selected"

def stepProfileInfo : String := "profile_info_completed"

def stepAccountType : String := "account_type_selected"

/-- The `EXISTS (SELECT 1 FROM profile_setup_progress WHERE user_id =
.. AND step_name = .. AND completed = true)` test. -/
def stepDone (db : DB) (uid : UserId) (step : String) : Bool :=
  db.setup_steps.any
    (fun r => r.user_id == uid && r.step_name == step && r.completed)

/-- The `UPDATE profiles SET setup_completed = true,
setup_completed_at = now() WHERE id = ..` row action. -/
def stampSetup (uid : UserId) (now : Time) (p : ProfileRow) : ProfileRow :=
  if p.id == uid then ⟨p.id, p.email, p.username, p.role, true, some now⟩
  else p

/-- The `update_setup_completion` trigger function, fired with the
written row `row`: when the written step is one of the three listed
names and both `avatar_selected` and `profile_info_completed` are
completed, it re-runs the profile update unconditionally. -/
def update_setup_completion (row : StepRow) (now : Time) (db : DB) : DB :=
  if row.step_name == stepAvatar || row.step_name == stepProfileInfo ||
      row.step_name == stepAccountType then
    if stepDone db row.user_id stepAvatar &&
        stepDone db row.user_id stepProfileInfo then
      ⟨db.users, db.profiles.map (stampSetup row.user_id now), db.carts,
        db.cart_items, db.stats, db.setup_steps, db.nextCartId⟩
    else db
  else db

/-- Write a `profile_setup_progress` row as completed: an `UPDATE` when
the `UNIQUE(user_id, step_name)` row exists, an `INSERT` otherwise. -/
def writeStep (uid : UserId) (step : String) (db : DB) : DB :=
  if db.setup_steps.any
      (fun r => r.user_id == uid && r.step_name == step) then
    ⟨db.users, db.profiles, db.carts, db.cart_items, db.stats,
      db.setup_steps.map
        (fun r => if r.user_id == uid && r.step_name == step then
          ⟨uid, step, true⟩ else r),
      db.nextCartId⟩
  else
    ⟨db.users, db.profiles, db.carts, db.cart_items, db.stats,
      ⟨uid, step, true⟩ :: db.setup_steps, db.nextCartId⟩

/-- Marking a step complete: the row write followed by the
`trigger_update_setup_completion` `AFTER INSERT OR UPDATE` trigger. -/
def markStepComplete (uid : UserId) (step : String) (now : Time)
    (db : DB) : DB :=
  update_setup_completion ⟨uid, step, true⟩ now (writeStep uid step db)

/-! ## Dissection lemmas for the bootstrap inserts -/

theorem insertProfile_some {u : AuthUser} {db db' : DB}
    (h : insertProfile u db = some db') :
    db' = ⟨db.users,
      ⟨u.id, u.email, default_username u.email, Role.user, false, none⟩ ::
        db.profiles,
      db.carts, db.cart_items, db.stats, db.setup_steps, db.nextCartId⟩ ∧
    db.profiles.any (fun p => p.id == u.id) = false := by
  unfold insertProfile at h
  split_ifs at h with h1 h2 h3
  all_goals first
    | exact Option.noConfusion h
    | (injection h with h'
       exact ⟨h'.symm, by simpa using h1⟩)

theorem insertCart_some {uid : UserId} {now : Time} {db db' : DB}
    (h : insertCart uid now db = some db') :
    db' = ⟨db.users, db.profiles,
      ⟨db.nextCartId, uid, now + cartTTL⟩ :: db.carts,
      db.cart_items, db.stats, db.setup_steps, db.nextCartId + 1⟩ ∧
    db.carts.any (fun c => c.user_id == uid) = false := by
  unfold insertCart at h
  split_ifs at h with h1
  all_goals first
    | exact Option.noConfusion h
    | (injection h with h'
       exact ⟨h'.symm, by simpa using h1⟩)

theorem insertStats_some {uid : UserId} {db db' : DB}
    (h : insertStats uid db = some db') :
    db' = ⟨db.users, db.profiles, db.carts, db.cart_items,
      ⟨uid, 0, 0⟩ :: db.stats, db.setup_steps, db.nextCartId⟩ ∧
    db.stats.any (fun s => s.user_id == uid) = false := by
  unfold insertStats at h
  split_ifs at h with h1
  all_goals first
    | exact Option.noConfusion h
    | (injection h with h'
       exact ⟨h'.symm, by simpa using h1⟩)

/-- Claim C3: creating a new principal atomically creates exactly one
profile whose username is the lower-cased local part of the email,
exactly one (empty) shopping cart, and one zeroed stats row; when any
of the three inserts fails the whole transaction rolls back and the
state is exactly the old one. -/
theorem createPrincipal_bootstrap (u : AuthUser) (now : Time) (db : DB)
    (hwf : DB.WF db) :
    createPrincipal u now db = db ∨
    ((createPrincipal u now db).profiles.filter (fun p => p.id == u.id) =
        [⟨u.id, u.email, default_username u.email, Role.user, false,
          none⟩] ∧
      ((createPrincipal u now db).carts.filter
          (fun c => c.user_id == u.id)).length = 1 ∧
      (∀ c ∈ (createPrincipal u now db).carts, c.user_id = u.id →
        (createPrincipal u now db).cart_items.filter
          (fun it => it.cart_id == c.id) = []) ∧
      (createPrincipal u now db).stats.filter
        (fun s => s.user_id == u.id) = [⟨u.id, 0, 0⟩]) := by
  unfold createPrincipal
  split_ifs with hdup
  · exact Or.inl rfl
  · cases hh : handle_new_user u now
        ⟨u :: db.users, db.profiles, db.carts, db.cart_items, db.stats,
          db.setup_steps, db.nextCartId⟩ with
    | none => exact Or.inl rfl
    | some dbf =>
      right
      dsimp only
      unfold handle_new_user at hh
      cases hp : insertProfile u
          ⟨u :: db.users, db.profiles, db.carts, db.cart_items, db.stats,
            db.setup_steps, db.nextCartId⟩ with
      | none =>
        rw [hp] at hh
        exact Option.noConfusion hh
      | some db1 =>
        rw [hp] at hh
        dsimp only at hh
        cases hcrt : insertCart u.id now db1 with
        | none =>
          rw [hcrt] at hh
          exact Option.noConfusion hh
        | some db2 =>
          rw [hcrt] at hh
          dsimp only at hh
          obtain ⟨hpe, hpany⟩ := insertProfile_some hp
          obtain ⟨hce, hcany⟩ := insertCart_some hcrt
          obtain ⟨hse, hsany⟩ := insertStats_some hh
          subst hpe
          subst hce
          subst hse
          dsimp only at hpany hcany hsany ⊢
          refine ⟨?_, ?_, ?_, ?_⟩
          · rw [List.filter_cons_of_pos (by simp)]
            rw [List.filter_eq_nil_iff.mpr ?_]
            intro p hp2 hpp
            have := List.any_eq_false.mp hpany p hp2
            exact this hpp
          · rw [List.filter_cons_of_pos (by simp)]
            rw [List.filter_eq_nil_iff.mpr ?_]
            · rfl
            · intro c hc2 hcc
              have := List.any_eq_false.mp hcany c hc2
              exact this hcc
          · intro c hc hcu
            rcases List.mem_cons.mp hc with rfl | hcin
            · rw [List.filter_eq_nil_iff]
              intro it hit hq
              have hlt := hwf.2.1 it hit
              have : it.cart_id = db.nextCartId := by simpa using hq
              omega
            · exfalso
              have := List.any_eq_false.mp hcany c hcin
              exact this (by simpa using hcu)
          · rw [List.filter_cons_of_pos (by simp)]
            rw [List.filter_eq_nil_iff.mpr ?_]
            intro s hs2 hss
            have := List.any_eq_false.mp hsany s hs2
            exact this hss

def demoEmail : String := "Ann@shop.example"

def demoUser : AuthUser := ⟨1, demoEmail⟩

def emptyDB : DB := ⟨[], [], [], [], [], [], 0⟩

/-- Witness for C3 at a concrete user and the empty database. -/
theorem createPrincipal_bootstrap_witness :
    DB.WF emptyDB ∧
    (createPrincipal demoUser 100 emptyDB = emptyDB ∨
      ((createPrincipal demoUser 100 emptyDB).profiles.filter
          (fun p => p.id == demoUser.id) =
        [⟨demoUser.id, demoUser.email, default_username demoUser.email,
          Role.user, false, none⟩] ∧
      ((createPrincipal demoUser 100 emptyDB).carts.filter
          (fun c => c.user_id == demoUser.id)).length = 1 ∧
      (∀ c ∈ (createPrincipal demoUser 100 emptyDB).carts,
        c.user_id = demoUser.id →
        (createPrincipal demoUser 100 emptyDB).cart_items.filter
          (fun it => it.cart_id == c.id) = []) ∧
      (createPrincipal demoUser 100 emptyDB).stats.filter
        (fun s => s.user_id == demoUser.id) = [⟨demoUser.id, 0, 0⟩])) :=
  ⟨⟨by decide, by decide, by decide⟩,
    createPrincipal_bootstrap demoUser 100 emptyDB
      ⟨by decide, by decide, by decide⟩⟩

/-! ## `get_or_create_cart` -/

theorem carts_filter_eq_singleton {l : List CartRow}
    (hn : (l.map (fun c => c.user_id)).Nodup) {c : CartRow} (hc : c ∈ l)
    {uid : UserId} (hu : c.user_id = uid) :
    l.filter (fun x => x.user_id == uid) = [c] := by
  induction l with
  | nil => cases hc
  | cons a t ih =>
    rw [List.map_cons, List.nodup_cons] at hn
    rcases List.mem_cons.mp hc with rfl | hct
    · rw [List.filter_cons_of_pos (by simp [hu])]
      have hnil : t.filter (fun x => x.user_id == uid) = [] := by
        rw [List.filter_eq_nil_iff]
        intro x hx hpx
        apply hn.1
        rw [List.mem_map]
        refine ⟨x, hx, ?_⟩
        have hxu : x.user_id = uid := by simpa using hpx
        rw [hxu]
        exact hu.symm
      rw [hnil]
    · have hane : ¬(a.user_id == uid) = true := by
        intro hq
        apply hn.1
        rw [List.mem_map]
        refine ⟨c, hct, ?_⟩
        rw [hu]
        exact (eq_of_beq hq).symm
      have hstep : List.filter (fun x => x.user_id == uid) (a :: t) =
          List.filter (fun x => x.user_id == uid) t :=
        List.filter_cons_of_neg hane
      rw [hstep]
      exact ih hn.2 hct

/-- A state in which user 1 owns a single cart that expired at time 5. -/
def c8db : DB := ⟨[], [], [⟨0, 1, 5⟩], [], [], [], 1⟩

/-- Counterexample to claim C8 as stated: at time 10 user 1 has no
non-expired cart, so the claim promises an insert that returns a new
cart id, but the insert collides with the `UNIQUE(user_id)` row of the
expired cart and the call fails instead of returning an id. -/
theorem get_or_create_cart_expired_fails :
    c8db.carts = [⟨0, 1, 5⟩] ∧ ¬((10 : Nat) < 5) ∧
      get_or_create_cart 1 10 c8db = none := by
  decide

/-- Claim C8 amended: when the user has no expired leftover cart row,
`get_or_create_cart` returns the existing non-expired cart id or
inserts a fresh cart, two successive calls return the same id and the
same state, and exactly one cart row for the user remains. -/
theorem get_or_create_cart_amended (uid : UserId) (now : Time) (db : DB)
    (hwf : DB.WF db)
    (hne : ∀ c ∈ db.carts, c.user_id = uid → now < c.expires_at) :
    ∃ cid db1, get_or_create_cart uid now db = some (cid, db1) ∧
      get_or_create_cart uid now db1 = some (cid, db1) ∧
      (db1.carts.filter (fun c => c.user_id == uid)).length = 1 := by
  cases hfind : db.carts.find?
      (fun c => c.user_id == uid && decide (now < c.expires_at)) with
  | some c =>
    have hpred := List.find?_some hfind
    rw [Bool.and_eq_true] at hpred
    have hcu : c.user_id = uid := by simpa using hpred.1
    have hmem := List.mem_of_find?_eq_some hfind
    have hcall : get_or_create_cart uid now db = some (c.id, db) := by
      unfold get_or_create_cart
      rw [hfind]
    refine ⟨c.id, db, hcall, hcall, ?_⟩
    rw [carts_filter_eq_singleton hwf.2.2 hmem hcu]
    rfl
  | none =>
    have hnone := List.find?_eq_none.mp hfind
    have hnouser : ∀ x ∈ db.carts, (x.user_id == uid) = false := by
      intro x hx
      by_cases hxu : x.user_id = uid
      · exfalso
        apply hnone x hx
        rw [Bool.and_eq_true]
        exact ⟨by simpa using hxu, by simpa using hne x hx hxu⟩
      · simpa using hxu
    have hinsert : insertCart uid now db =
        some ⟨db.users, db.profiles,
          ⟨db.nextCartId, uid, now + cartTTL⟩ :: db.carts,
          db.cart_items, db.stats, db.setup_steps,
          db.nextCartId + 1⟩ := by
      unfold insertCart
      rw [if_neg]
      intro hany
      rw [List.any_eq_true] at hany
      obtain ⟨x, hx, hpx⟩ := hany
      rw [hnouser x hx] at hpx
      exact Bool.noConfusion hpx
    refine ⟨db.nextCartId,
      ⟨db.users, db.profiles,
        ⟨db.nextCartId, uid, now + cartTTL⟩ :: db.carts,
        db.cart_items, db.stats, db.setup_steps, db.nextCartId + 1⟩,
      ?_, ?_, ?_⟩
    · unfold get_or_create_cart
      rw [hfind, hinsert]
    · unfold get_or_create_cart
      have hstep : (⟨db.nextCartId, uid, now + cartTTL⟩ :: db.carts).find?
          (fun c => c.user_id == uid && decide (now < c.expires_at)) =
          some ⟨db.nextCartId, uid, now + cartTTL⟩ := by
        apply List.find?_cons_of_pos
        rw [Bool.and_eq_true]
        constructor
        · simp
        · have hlt : now < now + cartTTL :=
            Nat.lt_add_of_pos_right (by decide)
          simpa using hlt
      rw [hstep]
    · show ((⟨db.nextCartId, uid, now + cartTTL⟩ :: db.carts).filter
        (fun c => c.user_id == uid)).length = 1
      rw [List.filter_cons_of_pos (by simp)]
      rw [List.filter_eq_nil_iff.mpr ?_]
      · rfl
      · intro x hx hq
        rw [hnouser x hx] at hq
        exact Bool.noConfusion hq

/-- Witness for the amended C8 at a concrete user and the empty
database. -/
theorem get_or_create_cart_amended_witness :
    DB.WF emptyDB ∧
    (∀ c ∈ emptyDB.carts, c.user_id = 1 → 10 < c.expires_at) ∧
    (∃ cid db1, get_or_create_cart 1 10 emptyDB = some (cid, db1) ∧
      get_or_create_cart 1 10 db1 = some (cid, db1) ∧
      (db1.carts.filter (fun c => c.user_id == 1)).length = 1) :=
  ⟨⟨by decide, by decide, by decide⟩, by decide,
    get_or_create_cart_amended 1 10 emptyDB
      ⟨by decide, by decide, by decide⟩ (by decide)⟩

/-! ## Setup completion: claims about `update_setup_completion` -/

/-- A state with one profile (user 1, setup not completed) whose
`profile_setup_progress` already records `profile_info_completed`. -/
def c4db : DB :=
  ⟨[], [⟨1, String.mk [], String.mk ['u'], Role.user, false, none⟩],
    [], [], [], [⟨1, stepProfileInfo, true⟩], 0⟩

/-- Counterexample to claim C4 as stated: after the transition fires at
time 10, re-marking the same required step at time 20 re-runs the
`UPDATE profiles SET setup_completed = true, setup_completed_at =
now()` and changes `setup_completed_at` from 10 to 20. -/
theorem markStepComplete_restamps :
    (markStepComplete 1 stepAvatar 10 c4db).profiles.map
        (fun p => p.setup_completed) = [true] ∧
    (markStepComplete 1 stepAvatar 10 c4db).profiles.map
        (fun p => p.setup_completed_at) = [some 10] ∧
    (markStepComplete 1 stepAvatar 20
        (markStepComplete 1 stepAvatar 10 c4db)).profiles.map
        (fun p => p.setup_completed_at) = [some 20] := by
  decide

/-- Claim C4 amended: across any step write, `setup_completed` never
reverts from `true`, and it becomes `true` only when both
`avatar_selected` and `profile_info_completed` are recorded complete;
but whenever a listed step is written while both required steps are
complete, the trigger re-stamps `setup_completed_at` with the current
time, so the timestamp does change on repeated writes. -/
theorem update_setup_completion_amended (uid : UserId) (step : String)
    (now : Time) (db : DB) :
    List.Forall₂ (fun p p' =>
        p'.id = p.id ∧
        (p.setup_completed = true → p'.setup_completed = true) ∧
        (p'.setup_completed = true → p.setup_completed = true ∨
          (stepDone (writeStep uid step db) uid stepAvatar = true ∧
            stepDone (writeStep uid step db) uid stepProfileInfo = true)))
      db.profiles (markStepComplete uid step now db).profiles ∧
    ((step = stepAvatar ∨ step = stepProfileInfo ∨
        step = stepAccountType) →
      stepDone (writeStep uid step db) uid stepAvatar = true →
      stepDone (writeStep uid step db) uid stepProfileInfo = true →
      ∀ p' ∈ (markStepComplete uid step now db).profiles, p'.id = uid →
        p'.setup_completed_at = some now) := by
  have hwp : (writeStep uid step db).profiles = db.profiles := by
    unfold writeStep
    split_ifs <;> rfl
  unfold markStepComplete update_setup_completion
  dsimp only
  split_ifs with htrig hdone
  · constructor
    · rw [hwp]
      rw [List.forall₂_map_right_iff, List.forall₂_same]
      intro p hp
      unfold stampSetup
      split_ifs with hpid
      · refine ⟨rfl, fun _ => rfl, fun _ => Or.inr ?_⟩
        rw [Bool.and_eq_true] at hdone
        exact hdone
      · exact ⟨rfl, fun h => h, fun h => Or.inl h⟩
    · intro hstep hav hpi p' hp' hpid
      rw [hwp] at hp'
      rw [List.mem_map] at hp'
      obtain ⟨p, hpmem, hpe⟩ := hp'
      unfold stampSetup at hpe
      split_ifs at hpe with hq
      · rw [← hpe]
      · exfalso
        rw [← hpe] at hpid
        simp at hq
        exact hq hpid
  · constructor
    · rw [hwp, List.forall₂_same]
      intro p hp
      exact ⟨rfl, fun h => h, fun h => Or.inl h⟩
    · intro hstep hav hpi
      exfalso
      apply hdone
      rw [Bool.and_eq_true]
      exact ⟨hav, hpi⟩
  · constructor
    · rw [hwp, List.forall₂_same]
      intro p hp
      exact ⟨rfl, fun h => h, fun h => Or.inl h⟩
    · intro hstep hav hpi
      exfalso
      apply htrig
      rcases hstep with rfl | rfl | rfl <;> simp

/-- Witness for the amended C4 at a concrete state: applies the theorem
at user 1, step `avatar_selected`, time 10 and the state `c4db`. -/
theorem update_setup_completion_amended_witness :
    List.Forall₂ (fun p p' =>
        p'.id = p.id ∧
        (p.setup_completed = true → p'.setup_completed = true) ∧
        (p'.setup_completed = true → p.setup_completed = true ∨
          (stepDone (writeStep 1 stepAvatar c4db) 1 stepAvatar = true ∧
            stepDone (writeStep 1 stepAvatar c4db) 1
              stepProfileInfo = true)))
      c4db.profiles (markStepComplete 1 stepAvatar 10 c4db).profiles ∧
    ((stepAvatar = stepAvatar ∨ stepAvatar = stepProfileInfo ∨
        stepAvatar = stepAccountType) →
      stepDone (writeStep 1 stepAvatar c4db) 1 stepAvatar = true →
      stepDone (writeStep 1 stepAvatar c4db) 1 stepProfileInfo = true →
      ∀ p' ∈ (markStepComplete 1 stepAvatar 10 c4db).profiles,
        p'.id = 1 → p'.setup_completed_at = some 10) :=
  update_setup_completion_amended 1 stepAvatar 10 c4db

/-! ## Row-level-security policies (listings, orders, admin override)

The policy texts are taken from section 5.2 of the dump.  Statuses of
`listings` and `brand_verification_requests` are `VARCHAR` columns and
stay strings; `orders.status` is the `order_status` enum. -/

structure Principal where
  id : UserId
  role : Role
deriving DecidableEq, Repr

structure Listing where
  seller_id : UserId
  status : String
deriving DecidableEq, Repr

structure Order where
  buyer_id : UserId
  seller_id : UserId
  status : OrderStatus
deriving DecidableEq, Repr

def statusDraft : String := "draft"

def statusActive : String := "active"

def statusSold : String := "sold"

def statusReserved : String := "reserved"

/-- Policy `Listings are viewable by everyone`:
`FOR SELECT USING (status IN ('active', 'sold', 'reserved'))` — the
only SELECT policy on `listings`; it mentions neither `auth.uid()` nor
any role. -/
def listings_select_policy (l : Listing) : Bool :=
  l.status == statusActive || l.status == statusSold ||
    l.status == statusReserved

/-- SELECT visibility of a listing row to a principal: the OR of all
SELECT policies on `listings` (there is exactly one, and it does not
consult the principal). -/
def listingSelectAllowed (pr : Principal) (l : Listing) : Bool :=
  listings_select_policy l

/-- Modelled from the spec: the visibility relation claim C1 asserts —
public status, or ownership, or the admin role. -/
def listingSelectSpec (pr : Principal) (l : Listing) : Bool :=
  listings_select_policy l || pr.id == l.seller_id ||
    pr.role == Role.admin

/-- Counterexample to claim C1 as stated: principal 1 is the seller of
a draft listing (so the claimed relation grants visibility), yet the
single SELECT policy on `listings` hides the row even from its owner. -/
theorem listing_select_owner_draft_hidden :
    listingSelectAllowed ⟨1, Role.user⟩ ⟨1, statusDraft⟩ = false ∧
    listingSelectSpec ⟨1, Role.user⟩ ⟨1, statusDraft⟩ = true := by
  decide

/-- Claim C1 amended: a SELECT of a listing returns the row iff its
status is in the public set `{active, sold, reserved}` — for every
principal alike; neither ownership nor the admin role widens SELECT
visibility on `listings`. -/
theorem listing_select_amended (pr : Principal) (l : Listing) :
    listingSelectAllowed pr l = true ↔
      (l.status = statusActive ∨ l.status = statusSold ∨
        l.status = statusReserved) := by
  unfold listingSelectAllowed listings_select_policy
  constructor
  · intro h
    rcases Bool.or_eq_true _ _ |>.mp h with h1 | h2
    · rcases Bool.or_eq_true _ _ |>.mp h1 with h3 | h4
      · exact Or.inl (by simpa using h3)
      · exact Or.inr (Or.inl (by simpa using h4))
    · exact Or.inr (Or.inr (by simpa using h2))
  · intro h
    rcases h with h | h | h <;> simp [h]

/-- Witness for the amended C1: an active listing is visible to an
unrelated ordinary principal. -/
theorem listing_select_amended_witness :
    listingSelectAllowed ⟨5, Role.user⟩ ⟨7, statusActive⟩ = true :=
  (listing_select_amended ⟨5, Role.user⟩ ⟨7, statusActive⟩).mpr
    (Or.inl rfl)

/-! ### Orders: the two UPDATE policies -/

/-- Policy `Buyers can cancel pending orders`: `FOR UPDATE USING
(auth.uid() = buyer_id AND status IN ('pending_payment',
'payment_processing'))`; it has no `WITH CHECK`, so the same
expression checks the updated row. -/
def buyers_cancel_using (uid : UserId) (o : Order) : Bool :=
  uid == o.buyer_id && (o.status == OrderStatus.pending_payment ||
    o.status == OrderStatus.payment_processing)

/-- Policy `Sellers can update order status`: `FOR UPDATE USING
(auth.uid() = seller_id) WITH CHECK (auth.uid() = seller_id)`. -/
def sellers_update_using (uid : UserId) (o : Order) : Bool :=
  uid == o.seller_id

def sellers_update_check (uid : UserId) (o : Order) : Bool :=
  uid == o.seller_id

/-- An `UPDATE` of an order row under PostgreSQL RLS: the existing row
must pass some policy's `USING` clause and the updated row must pass
some policy's `WITH CHECK` clause (`USING` standing in when absent);
permissive policies are OR'd. -/
def order_update_allowed (uid : UserId) (old updated : Order) : Bool :=
  (buyers_cancel_using uid old || sellers_update_using uid old) &&
    (buyers_cancel_using uid updated || sellers_update_check uid updated)

/-- The row an order-cancelling UPDATE writes. -/
def cancelTarget (o : Order) : Order :=
  ⟨o.buyer_id, o.seller_id, OrderStatus.cancelled⟩

/-- An UPDATE that sets the order's status to `cancelled`: the new row
when allowed, `none` (statement fails, row unchanged) otherwise. -/
def cancel_order (uid : UserId) (o : Order) : Option Order :=
  if order_update_allowed uid o (cancelTarget o) then
    some (cancelTarget o)
  else none

/-- Counterexample to claim C2 as stated: principal 2 is the seller
(not the buyer) of an order in status `shipped`, and the cancelling
UPDATE succeeds through the `Sellers can update order status` policy —
the claim says a cancel succeeds only for the buyer in a pre-payment
status and that a cancel from `shipped` fails. -/
theorem cancel_order_seller_shipped_succeeds :
    cancel_order 2 ⟨1, 2, OrderStatus.shipped⟩ =
      some ⟨1, 2, OrderStatus.cancelled⟩ ∧ (2 : UserId) ≠ 1 := by
  decide

/-- Claim C2 amended: an UPDATE that cancels an order succeeds exactly
when the requester is the order's seller, whatever the current status;
every other principal — including the buyer, whose own policy's check
clause rejects the new `cancelled` row — is denied and the order is
unchanged. -/
theorem cancel_order_amended (uid : UserId) (o : Order) :
    cancel_order uid o =
      if uid = o.seller_id then some (cancelTarget o) else none := by
  unfold cancel_order order_update_allowed
  by_cases hs : uid = o.seller_id
  · rw [if_pos hs, if_pos]
    rw [Bool.and_eq_true]
    constructor
    · rw [Bool.or_eq_true]
      right
      unfold sellers_update_using
      simpa using hs
    · rw [Bool.or_eq_true]
      right
      unfold sellers_update_check cancelTarget
      simpa using hs
  · rw [if_neg hs, if_neg]
    rw [Bool.and_eq_true]
    intro hcontra
    rcases Bool.or_eq_true _ _ |>.mp hcontra.2 with hb | hsel
    · unfold buyers_cancel_using cancelTarget at hb
      rw [Bool.and_eq_true] at hb
      rcases Bool.or_eq_true _ _ |>.mp hb.2 with hq | hq <;>
        exact Bool.noConfusion (by simpa using hq)
    · unfold sellers_update_check cancelTarget at hsel
      exact hs (by simpa using hsel)

/-- Witness for the amended C2: the seller cancels, a third party is
denied. -/
theorem cancel_order_amended_witness :
    cancel_order 2 ⟨1, 2, OrderStatus.paid⟩ =
      (if (2 : UserId) = 2 then
        some (cancelTarget ⟨1, 2, OrderStatus.paid⟩) else none) :=
  cancel_order_amended 2 ⟨1, 2, OrderStatus.paid⟩

/-! ### Admin override and the service-role-only tables -/

inductive SqlOp where
  | select
  | insert
  | update
  | delete
deriving DecidableEq, Repr

/-- The `EXISTS (SELECT 1 FROM profiles WHERE id = auth.uid() AND
role = 'admin')` test used by the dump's admin policies. -/
def is_admin_row_check (profs : List ProfileRow) (uid : UserId) : Bool :=
  profs.any (fun p => p.id == uid && p.role == Role.admin)

/-- Policy `Service role only` on `query_performance_log`:
`FOR ALL USING (false) WITH CHECK (false)`. -/
def query_performance_log_allowed (op : SqlOp) (uid : UserId) : Bool :=
  false

/-- Policy `Service role only` on `database_health_metrics`. -/
def database_health_metrics_allowed (op : SqlOp) (uid : UserId) : Bool :=
  false

/-- Policy `Service role only` on `slow_queries`. -/
def slow_queries_allowed (op : SqlOp) (uid : UserId) : Bool :=
  false

/-- UPDATE on `listings`: the only UPDATE policy is `Users can update
their own listings` (`USING (auth.uid() = seller_id)`, no `WITH
CHECK`), so both the old and the new row must belong to the
requester — there is no admin policy on `listings`. -/
def listings_update_allowed (uid : UserId) (old updated : Listing) :
    Bool :=
  (uid == old.seller_id) && (uid == updated.seller_id)

structure BrandRequest where
  user_id : UserId
  verification_status : String
deriving DecidableEq, Repr

def statusPending : String := "pending"

/-- Policy `Users can update own pending requests` on
`brand_verification_requests`. -/
def brand_owner_update_using (uid : UserId) (r : BrandRequest) : Bool :=
  uid == r.user_id && (r.verification_status == statusPending)

/-- UPDATE on `brand_verification_requests`: the owner-while-pending
policy OR'd with `Admins can update any brand request`, on both the
old row (`USING`) and the new row (default check). -/
def brand_request_update_allowed (profs : List ProfileRow)
    (uid : UserId) (old updated : BrandRequest) : Bool :=
  (brand_owner_update_using uid old || is_admin_row_check profs uid) &&
    (brand_owner_update_using uid updated ||
      is_admin_row_check profs uid)

def adminProfile : ProfileRow :=
  ⟨1, String.mk [], String.mk ['a'], Role.admin, false, none⟩

/-- Counterexample to claim C7 as stated: principal 1 has role admin,
yet an UPDATE on a listing owned by principal 2 is denied — `listings`
is not a service-role-only table, so the claim promises the admin
every operation on it. -/
theorem admin_denied_on_listings_update :
    is_admin_row_check [adminProfile] 1 = true ∧
    listings_update_allowed 1 ⟨2, statusActive⟩ ⟨2, statusActive⟩ =
      false := by
  decide

/-- Claim C7 amended: the three service-role-only monitoring tables
deny every operation to every principal, admins included; the admin
role bypasses ownership only where a policy grants it explicitly (for
example any UPDATE on `brand_verification_requests`), while on
owner-ruled tables such as `listings` a non-owner is denied UPDATE
regardless of role. -/
theorem admin_override_amended :
    (∀ op uid, query_performance_log_allowed op uid = false) ∧
    (∀ op uid, database_health_metrics_allowed op uid = false) ∧
    (∀ op uid, slow_queries_allowed op uid = false) ∧
    (∀ profs uid old updated, is_admin_row_check profs uid = true →
      brand_request_update_allowed profs uid old updated = true) ∧
    (∀ uid old updated, uid ≠ old.seller_id →
      listings_update_allowed uid old updated = false) := by
  refine ⟨fun _ _ => rfl, fun _ _ => rfl, fun _ _ => rfl, ?_, ?_⟩
  · intro profs uid old updated hadm
    unfold brand_request_update_allowed
    rw [hadm]
    simp
  · intro uid old updated hne
    unfold listings_update_allowed
    have hq : (uid == old.seller_id) = false := by
      simpa using hne
    rw [hq]
    rfl

/-- Witness for the amended C7 at concrete principals and rows. -/
theorem admin_override_amended_witness :
    query_performance_log_allowed SqlOp.select 1 = false ∧
    brand_request_update_allowed [adminProfile] 1 ⟨2, statusPending⟩
      ⟨2, statusPending⟩ = true ∧
    listings_update_allowed 1 ⟨2, statusActive⟩ ⟨2, statusActive⟩ =
      false :=
  ⟨admin_override_amended.1 SqlOp.select 1,
    admin_override_amended.2.2.2.1 [adminProfile] 1 ⟨2, statusPending⟩
      ⟨2, statusPending⟩ (by decide),
    admin_override_amended.2.2.2.2 1 ⟨2, statusActive⟩
      ⟨2, statusActive⟩ (by decide)⟩

/-! ## `user_follows`: no self-follow -/

structure FollowRow where
  follower_id : UserId
  following_id : UserId
deriving DecidableEq, Repr

/-- The `UNIQUE(follower_id, following_id)` duplicate test. -/
def followExists (rows : List FollowRow) (f g : UserId) : Bool :=
  rows.any (fun r => r.follower_id == f && r.following_id == g)

/-- INSERT into `user_follows`: rejected by
`CHECK (follower_id != following_id)` or by the UNIQUE constraint. -/
def insertFollow (f g : UserId) (rows : List FollowRow) :
    Option (List FollowRow) :=
  if f == g then none
  else if followExists rows f g then none
  else some (⟨f, g⟩ :: rows)

/-- UPDATE of row `i` of `user_follows`: the new column values must
pass the same CHECK and UNIQUE constraints (checked against the other
rows). -/
def updateFollow (i : Nat) (f g : UserId) (rows : List FollowRow) :
    Option (List FollowRow) :=
  if i < rows.length then
    if f == g then none
    else if followExists (rows.eraseIdx i) f g then none
    else some (rows.set i ⟨f, g⟩)
  else none

/-- DELETE of row `i` of `user_follows`. -/
def deleteFollow (i : Nat) (rows : List FollowRow) : List FollowRow :=
  rows.eraseIdx i

/-- The `user_follows` states reachable from the empty table through
successful inserts, updates and deletes. -/
inductive FollowReachable : List FollowRow → Prop where
  | init : FollowReachable []
  | ins {rows rows' : List FollowRow} {f g : UserId} :
      FollowReachable rows → insertFollow f g rows = some rows' →
      FollowReachable rows'
  | upd {rows rows' : List FollowRow} {i : Nat} {f g : UserId} :
      FollowReachable rows → updateFollow i f g rows = some rows' →
      FollowReachable rows'
  | del {rows : List FollowRow} {i : Nat} :
      FollowReachable rows → FollowReachable (deleteFollow i rows)

/-- Claim C10: in every reachable `user_follows` state no row is a
self-follow — the CHECK constraint blocks every insert or update that
would create one. -/
theorem user_follows_no_self_follow (rows : List FollowRow)
    (h : FollowReachable rows) :
    ∀ r ∈ rows, r.follower_id ≠ r.following_id := by
  induction h with
  | init =>
    intro r hr
    cases hr
  | ins hprev hstep ih =>
    rename_i rows0 rows1 f g
    intro r hr
    unfold insertFollow at hstep
    split_ifs at hstep with h1 h2
    all_goals first
      | exact Option.noConfusion hstep
      | (injection hstep with hstep'
         rw [← hstep'] at hr
         rcases List.mem_cons.mp hr with rfl | hrin
         · intro hself
           apply h1
           simpa using hself
         · exact ih r hrin)
  | upd hprev hstep ih =>
    rename_i rows0 rows1 i f g
    intro r hr
    unfold updateFollow at hstep
    split_ifs at hstep with h0 h1 h2
    all_goals first
      | exact Option.noConfusion hstep
      | (injection hstep with hstep'
         rw [← hstep'] at hr
         rcases List.mem_or_eq_of_mem_set hr with hrin | rfl
         · exact ih r hrin
         · intro hself
           apply h1
           simpa using hself)
  | del hprev ih =>
    rename_i rows0 i
    intro r hr
    exact ih r (List.eraseIdx_subset rows0 i hr)

/-- Witness for C10: a concrete reachable one-row state, whose single
row is not a self-follow. -/
theorem user_follows_no_self_follow_witness :
    (⟨1, 2⟩ : FollowRow).follower_id ≠
      (⟨1, 2⟩ : FollowRow).following_id :=
  user_follows_no_self_follow [⟨1, 2⟩]
    (@FollowReachable.ins [] [⟨1, 2⟩] 1 2 FollowReachable.init
      (by decide)) ⟨1, 2⟩ (by decide)

end Driplo
